import Mathlib

/-!
Verification development for the solana-github-collector service.

The definitions below are shallow embeddings of the JavaScript sources:
machine-level JS numbers are modelled as `Nat`/`Int`, fallible calls as
`Except`/`Option`, and every network or database effect is supplied by an
explicit environment (oracle) argument.  Each definition cites the source
file and function it embeds.
-/

namespace SolanaCollector

/-! ## RepositoryDiscoveryWorker.generateSizeRanges
(src/workers/RepositoryDiscoveryWorker.js, lines 17-47)

The JS function runs five sequential `while` loops over a single mutable
`start` variable.  Since `start` only ever increases, the sequential loops
are equivalent to one loop dispatching on the band `start` currently lies
in; `genSizeRangesFrom` is that loop, producing the numeric (lo, hi) pair
pushed as the string `"lo..hi"`. -/

def genSizeRangesFrom (start : Nat) : List (Nat × Nat) :=
  if start < 1000 then (start, start + 199) :: genSizeRangesFrom (start + 150)
  else if start < 3000 then (start, start + 499) :: genSizeRangesFrom (start + 250)
  else if start < 5000 then (start, start + 999) :: genSizeRangesFrom (start + 500)
  else if start < 10000 then (start, start + 1999) :: genSizeRangesFrom (start + 1000)
  else if start < 15000 then (start, start + 4999) :: genSizeRangesFrom (start + 5000)
  else []
termination_by 15000 - start
decreasing_by all_goals omega

/-- Renders a numeric range the way the JS template literal does. -/
def renderSizeRange (p : Nat × Nat) : String :=
  toString p.1 ++ ".." ++ toString p.2

/-- `RepositoryDiscoveryWorker.generateSizeRanges()` -/
def generateSizeRanges : List String :=
  (genSizeRangesFrom 0).map renderSizeRange

/-! ## DeveloperActivityWorker activity filtering
(src/workers/DeveloperActivityWorker.js, lines 16-19 and 113-131) -/

/-- One element of `contribution.weeks`: `w` week timestamp (epoch seconds),
`c` commits, `a` additions, `d` deletions. -/
structure WeekEntry where
  w : Int
  c : Int
  a : Int
  d : Int
deriving DecidableEq, Repr

/-- `referenceTime = currentTime - (60*60*24*7 * 26)` from `processBatch`. -/
def referenceTimeOf (currentTime : Int) : Int :=
  currentTime - (60 * 60 * 24 * 7) * 26

/-- The filter in `processContributor`:
`contribution.weeks.filter((item) => item.c !== 0 && item.w > referenceTime)`. -/
def filterActivities (weeks : List WeekEntry) (referenceTime : Int) : List WeekEntry :=
  weeks.filter (fun item => item.c != 0 && referenceTime < item.w)

/-! ## TokenManager (src/services/github/TokenManager.js)

Times are in milliseconds (`Date.now()`), except `Quota.reset`, which the
rate-limit API reports in epoch seconds (hence the `* 1000` comparisons). -/

structure Quota where
  remaining : Nat
  reset : Nat
  limit : Nat
deriving DecidableEq, Repr

inductive ApiType
  | core | search | graphql | integrationManifest | codeSearch
deriving DecidableEq, Repr

/-- `token.rateLimits`.  A successful refresh replaces the whole table by
`response.data.resources`, which may omit a category, hence `Option` per
field (JS reads of a missing key yield `undefined`). -/
structure RateLimits where
  core : Option Quota
  search : Option Quota
  graphql : Option Quota
  integrationManifest : Option Quota
  codeSearch : Option Quota
deriving DecidableEq, Repr

def RateLimits.lookup (rl : RateLimits) : ApiType → Option Quota
  | .core => rl.core
  | .search => rl.search
  | .graphql => rl.graphql
  | .integrationManifest => rl.integrationManifest
  | .codeSearch => rl.codeSearch

structure TokenState where
  rateLimits : RateLimits
  lastUsed : Nat
  isHealthy : Bool
  consecutiveErrors : Nat
deriving DecidableEq, Repr

structure PoolState where
  tokens : List TokenState
  currentIndex : Nat
deriving DecidableEq, Repr

/-- The literal initial quota table from the constructor (lines 50-56). -/
def initialRateLimits : RateLimits where
  core := some ⟨5000, 0, 5000⟩
  search := some ⟨30, 0, 30⟩
  graphql := some ⟨5000, 0, 5000⟩
  integrationManifest := some ⟨5000, 0, 5000⟩
  codeSearch := some ⟨10, 0, 10⟩

def freshTokenState : TokenState where
  rateLimits := initialRateLimits
  lastUsed := 0
  isHealthy := true
  consecutiveErrors := 0

/-- `new TokenManager(tokens)` (lines 10-66).  `none` models a missing or
undefined `tokens` argument (`!tokens`); an `Except.error` models the
constructor throwing. -/
def tokenManagerInit (tokens : Option (List String)) : Except String PoolState :=
  match tokens with
  | none => .error "No GitHub tokens provided"
  | some ts =>
    if ts.length = 0 then .error "No GitHub tokens provided"
    else .ok { tokens := ts.map (fun _ => freshTokenState), currentIndex := 0 }

/-- `new GitHubService()` (GitHubService.js lines 6-13): rejects an empty
`config.github.tokens` itself, then constructs the `TokenManager`. -/
def gitHubServiceInit (configTokens : List String) : Except String PoolState :=
  if configTokens.length = 0 then .error "No GitHub tokens configured"
  else tokenManagerInit (some configTokens)

/-- In-place update of one list element (no-op when out of range), modelling
mutation of `this.tokens[tokenIndex]`. -/
def modifyIdx (l : List α) (i : Nat) (f : α → α) : List α :=
  match l.get? i with
  | some a => l.set i (f a)
  | none => l

/-- `updateRateLimits(tokenIndex)` (lines 71-101).  The outcome of the live
`GET /rate_limit` probe is supplied by `probe`: `some rl` is a successful
response with resources `rl`; `none` is a failed request (the token keeps
its old table, its error counter is incremented, and at 3 consecutive
errors it is marked unhealthy). -/
def updateRateLimits (s : PoolState) (idx : Nat) (probe : Option RateLimits) : PoolState :=
  match probe with
  | some rl =>
    { s with tokens := modifyIdx s.tokens idx (fun t =>
        { t with rateLimits := rl, isHealthy := true, consecutiveErrors := 0 }) }
  | none =>
    { s with tokens := modifyIdx s.tokens idx (fun t =>
        let errs := t.consecutiveErrors + 1
        { t with consecutiveErrors := errs,
                 isHealthy := if 3 ≤ errs then false else t.isHealthy }) }

inductive SelectPath
  | loop   -- selected by the candidate scan (lines 116-165)
  | wait   -- selected by the all-exhausted wait path (lines 167-200)
deriving DecidableEq, Repr

/-- Bookkeeping state after `token.lastUsed = now; this.currentIndex =
(index + 1) % this.tokens.length` on a loop-path selection. -/
def selectToken (s : PoolState) (index now : Nat) : PoolState :=
  { tokens := modifyIdx s.tokens index (fun t => { t with lastUsed := now }),
    currentIndex := (index + 1) % s.tokens.length }

/-- Outcome of one iteration of the candidate scan. -/
inductive ScanStep
  | pick (idx : Nat) (s : PoolState) (k : Nat)
  | pass (s : PoolState) (k : Nat)
deriving Repr

/-- The quota checks on one candidate (lines 131-164), run after the
optional staleness refresh: select on `remaining > 0`; on an already-passed
reset, refresh once more and select if quota appeared.  A missing category
after the reset-passed refresh would raise a `TypeError` in JS
(`.remaining` of `undefined`); it is modelled as moving on to the next
candidate. -/
def gbtScanCheck (apiType : ApiType) (now : Nat) (env : Nat → Option RateLimits)
    (s1 : PoolState) (index k1 : Nat) : ScanStep :=
  match s1.tokens.get? index with
  | none => .pass s1 k1
  | some token1 =>
    match token1.rateLimits.lookup apiType with
    | none => .pass s1 k1
    | some rl =>
      if 0 < rl.remaining then .pick index (selectToken s1 index now) k1
      else if rl.reset * 1000 < now then
        let s2 := updateRateLimits s1 index (env k1)
        match s2.tokens.get? index with
        | none => .pass s2 (k1 + 1)
        | some token2 =>
          match token2.rateLimits.lookup apiType with
          | none => .pass s2 (k1 + 1)
          | some rl2 =>
            if 0 < rl2.remaining then .pick index (selectToken s2 index now) (k1 + 1)
            else .pass s2 (k1 + 1)
      else .pass s1 k1

/-- One iteration of the `for` loop in `getBestToken` (lines 116-165) at
offset `i`; `k` counts probe-oracle calls consumed so far: skip an
unhealthy candidate, refresh a stale snapshot (`now - lastUsed > 60000`),
then run the quota checks. -/
def gbtScanStep (apiType : ApiType) (now : Nat) (env : Nat → Option RateLimits)
    (s : PoolState) (i k : Nat) : ScanStep :=
  let index := (s.currentIndex + i) % s.tokens.length
  match s.tokens.get? index with
  | none => .pass s k
  | some token =>
    if !token.isHealthy then .pass s k
    else if 60000 < now - token.lastUsed then
      gbtScanCheck apiType now env (updateRateLimits s index (env k)) index (k + 1)
    else
      gbtScanCheck apiType now env s index k

/-- The candidate scan, iterating `rem` more offsets starting at `i`. -/
def gbtScan (apiType : ApiType) (now : Nat) (env : Nat → Option RateLimits) :
    Nat → PoolState → Nat → Nat → Option Nat × PoolState × Nat
  | 0, s, _, k => (none, s, k)
  | rem + 1, s, i, k =>
    match gbtScanStep apiType now env s i k with
    | .pick idx s' k' => (some idx, s', k')
    | .pass s' k' => gbtScan apiType now env rem s' (i + 1) k'

/-- `t.rateLimits[apiType]?.reset * 1000 || Date.now()` (line 172): a
missing category gives `NaN` and a zero reset gives `0`, both falsy, so
both fall back to the current time. -/
def resetTimeOf (q : Option Quota) (now : Nat) : Nat :=
  match q with
  | some rl => if rl.reset = 0 then now else rl.reset * 1000
  | none => now

/-- `sort((a, b) => a.resetTime - b.resetTime)[0]`: the stable ascending
sort's head is the first element attaining the minimal reset time. -/
def soonestOf (l : List (Nat × Nat)) : Option (Nat × Nat) :=
  match l with
  | [] => none
  | x :: xs => some (xs.foldl (fun best y => if y.2 < best.2 then y else best) x)

structure SelectOutcome where
  /-- `none` models `throw new Error('No healthy tokens available')`. -/
  result : Option (Nat × SelectPath)
  state : PoolState
  /-- Wait-path sleep duration in ms. -/
  slept : Option Nat
deriving DecidableEq, Repr

/-- `getBestToken(apiType)` (lines 106-205).  `env` supplies the outcomes of
the successive `updateRateLimits` probes.  NOTE (faithful to the source):
the wait path builds `resetTimes` from `this.tokens.filter(t => t.isHealthy)`
but records `index: idx` where `idx` is the position in the *filtered*
array, and then uses that position to index the *unfiltered* `this.tokens`. -/
def getBestToken (apiType : ApiType) (now : Nat) (env : Nat → Option RateLimits)
    (s : PoolState) : SelectOutcome :=
  match gbtScan apiType now env s.tokens.length s 0 0 with
  | (some idx, s', _) => { result := some (idx, .loop), state := s', slept := none }
  | (none, s', k) =>
    let healthy := s'.tokens.filter (fun t => t.isHealthy)
    let resetTimes := healthy.enum.map
      (fun p => (p.1, resetTimeOf (p.2.rateLimits.lookup apiType) now))
    match soonestOf resetTimes with
    | none => { result := none, state := s', slept := none }
    | some soonest =>
      let waitTime := (soonest.2 - now) + 1000
      let nowAfter := now + waitTime
      let s2 := updateRateLimits s' soonest.1 (env k)
      let s3 := { s2 with
        tokens := modifyIdx s2.tokens soonest.1 (fun t => { t with lastUsed := nowAfter }) }
      { result := some (soonest.1, .wait), state := s3, slept := some waitTime }

/-- The quota snapshot recorded for token `idx` in category `apiType`. -/
def tokenQuota (s : PoolState) (idx : Nat) (apiType : ApiType) : Option Quota :=
  match s.tokens.get? idx with
  | some t => t.rateLimits.lookup apiType
  | none => none

/-! ### TokenManager.execute (lines 210-259) -/

/-- The JS error value seen by `execute`'s catch block: `status` is the
HTTP status when the thrown value has one, and the two Booleans model
`error.message.includes('rate limit')` and
`error.message.includes('secondary rate limit')`. -/
structure ExecErr where
  status : Option Nat
  msgRateLimit : Bool
  msgSecondary : Bool
deriving DecidableEq, Repr

/-- `error.status >= n` (false when `status` is `undefined`, as in JS). -/
def ExecErr.statusGE (e : ExecErr) (n : Nat) : Bool :=
  match e.status with
  | some s => n ≤ s
  | none => false

/-- `error.status < n` (false when `status` is `undefined`, as in JS). -/
def ExecErr.statusLT (e : ExecErr) (n : Nat) : Bool :=
  match e.status with
  | some s => s < n
  | none => false

/-- Outcome of one attempt: token selection plus `requestFn` (a throw from
either is caught by the same catch block). -/
inductive AttemptOutcome (α : Type)
  | ok (r : α)
  | err (e : ExecErr)
deriving DecidableEq, Repr

inductive ExecResult (α : Type)
  | success (r : α) (attempt : Nat) (sleeps : List Nat)
  | thrown (e : ExecErr) (attempt : Nat) (sleeps : List Nat)
  /-- The loop ran out of attempts: `throw lastError || new Error(...)`. -/
  | exhausted (last : Option ExecErr) (sleeps : List Nat)
deriving DecidableEq, Repr

/-- The `for` loop of `execute` (lines 214-256) with `rem` attempts left;
`sleeps` records every `this.sleep(...)` in order.  The post-success
`updateRateLimits` call only refreshes bookkeeping and is absorbed into the
attempt outcome. -/
def executeLoop (env : Nat → AttemptOutcome α) :
    Nat → Nat → Option ExecErr → List Nat → ExecResult α
  | 0, _, lastError, sleeps => .exhausted lastError sleeps
  | rem + 1, attempt, _lastError, sleeps =>
    match env attempt with
    | .ok r => .success r attempt sleeps
    | .err e =>
      if e.status == some 403 && e.msgRateLimit then
        executeLoop env rem (attempt + 1) (some e) sleeps
      else if e.status == some 403 && e.msgSecondary then
        executeLoop env rem (attempt + 1) (some e) (sleeps ++ [60000])
      else if e.statusGE 400 && e.statusLT 500 then
        .thrown e attempt sleeps
      else if e.statusGE 500 then
        executeLoop env rem (attempt + 1) (some e) (sleeps ++ [2000 * (attempt + 1)])
      else
        .thrown e attempt sleeps

/-- `execute(apiType, requestFn)`: `maxRetries = this.tokens.length`. -/
def execute (tokenCount : Nat) (env : Nat → AttemptOutcome α) : ExecResult α :=
  executeLoop env tokenCount 0 none []

/-- A 4xx failure that is not a rate-limit signal: neither of the two 403
message checks fires, and 400 ≤ status < 500. -/
def ExecErr.isPlain4xx (e : ExecErr) : Prop :=
  e.statusGE 400 = true ∧ e.statusLT 500 = true ∧
    ¬(e.status = some 403 ∧ (e.msgRateLimit = true ∨ e.msgSecondary = true))

/-! ## GitHubService.getContributorsActivity (GitHubService.js, lines 111-136) -/

/-- Upstream response to one issue of the contributor-stats request. -/
inductive StatsResp (α : Type)
  /-- HTTP 202: stats are being computed. -/
  | accepted
  /-- 200 with `response.data || []` equal to `d`. -/
  | ok (d : α)
  /-- The request threw with status 404 (caught: the call returns null). -/
  | notFound
  /-- The request threw some other error (rethrown). -/
  | err (e : ExecErr)
deriving DecidableEq, Repr

inductive StatsResult (α : Type)
  | data (d : α)
  /-- 404 path: `return null`. -/
  | nullData
  | raised (e : ExecErr)
deriving DecidableEq, Repr

/-- `getContributorsActivity` as a function of the stream `resp` of
responses to the re-issued request, starting at call index `k`.  The source
recursion has no attempt cap; `fuel` only bounds how far this embedding
examines the stream, with `none` meaning the source is still polling after
`fuel` requests.  Each 202 leads to a fixed `sleep(2000)`, recorded in the
returned list, followed by the same request again. -/
def pollContributorStats (resp : Nat → StatsResp α) :
    Nat → Nat → List Nat × Option (StatsResult α)
  | _, 0 => ([], none)
  | k, fuel + 1 =>
    match resp k with
    | .accepted =>
      let r := pollContributorStats resp (k + 1) fuel
      (2000 :: r.1, r.2)
    | .ok d => ([], some (.data d))
    | .notFound => ([], some .nullData)
    | .err e => ([], some (.raised e))

/-! ## DeveloperActivityWorker (src/workers/DeveloperActivityWorker.js) -/

/-- One element of the contributor-stats array: `author?.login` and the
weekly entries. -/
structure Contributor where
  authorLogin : Option String
  weeks : List WeekEntry
deriving DecidableEq, Repr

structure UserInfo where
  name : Option String
  htmlUrl : String
  avatarUrl : Option String
  location : Option String
  twitter : Option String
deriving DecidableEq, Repr

/-- Outcome of `githubService.getUser({ username })`. -/
inductive UserFetch
  /-- 200: the profile. -/
  | found (u : UserInfo)
  /-- 404: `getUser` returns null. -/
  | missing
  /-- Other error: `getUser` rethrows; `processContributor` catches it. -/
  | failed (e : ExecErr)
deriving DecidableEq, Repr

structure Developer where
  id : Nat
  username : String
  name : Option String
  gitUrl : String
  avatar : Option String
  location : Option String
  twitter : Option String
deriving DecidableEq, Repr

structure ActivityRow where
  commits : Int
  additions : Int
  deletions : Int
  date : Int
  developerId : Nat
  repositoryId : Nat
deriving DecidableEq, Repr

/-- Database state touched by the activity worker.  `closedSource` records
the `repoId`s passed to `markRepositoryClosedSource`. -/
structure DbState where
  developers : List Developer
  activities : List ActivityRow
  closedSource : List String
  nextDevId : Nat
deriving DecidableEq, Repr

/-- `bulkCreateActivities` with `ignoreDuplicates: true` against the unique
index (repositoryId, developerId, date) of the Activities model. -/
def insertIgnoreActivities (db : List ActivityRow) (rows : List ActivityRow) :
    List ActivityRow :=
  rows.foldl (fun acc r =>
    if acc.any (fun x =>
        x.repositoryId == r.repositoryId && x.developerId == r.developerId &&
        x.date == r.date)
    then acc else acc ++ [r]) db

/-- `processContributor(contribution, repositoryId, referenceTime)` (lines
113-206).  Database reads/writes are total; the outcome of the profile
fetch is supplied by `userEnv`.  The function catches every error it can
encounter, so it is total.  (The dead re-fetch block at lines 168-175 is a
no-op in this model because the upsert always returns the developer.) -/
def processContributor (userEnv : String → UserFetch) (st : DbState)
    (c : Contributor) (repositoryId : Nat) (referenceTime : Int) : DbState :=
  match c.authorLogin with
  | none => st
  | some username =>
    let activities := filterActivities c.weeks referenceTime
    if activities.isEmpty then st
    else
      let write (st0 : DbState) (dev : Developer) : DbState :=
        let newRows := activities.map (fun a =>
          { commits := a.c, additions := a.a, deletions := a.d, date := a.w,
            developerId := dev.id, repositoryId := repositoryId })
        { st0 with activities := insertIgnoreActivities st0.activities newRows }
      match st.developers.find? (fun d => d.username == username) with
      | some dev => write st dev
      | none =>
        match userEnv username with
        | .missing => st
        | .failed _ => st
        | .found u =>
          let dev : Developer :=
            { id := st.nextDevId, username := username, name := u.name,
              gitUrl := u.htmlUrl, avatar := u.avatarUrl, location := u.location,
              twitter := u.twitter }
          let st1 := { st with developers := st.developers ++ [dev],
                               nextDevId := st.nextDevId + 1 }
          write st1 dev

/-- A repository row handed to `processBatch`: `id` is the database primary
key, `repoId` the natural key. -/
structure RepoRecord where
  id : Nat
  repoId : String
  owner : String
  name : String
deriving DecidableEq, Repr

/-- Resolved outcome of the contributor-stats call for one repository (202
polling already resolved, see `pollContributorStats`). -/
inductive ContributorsFetch
  | data (cs : List Contributor)
  | failure (e : ExecErr)
deriving DecidableEq, Repr

structure ActivityEnv where
  stats : String → ContributorsFetch
  user : String → UserFetch

/-- The try/catch of `getContributorsActivity` around the resolved response:
a thrown 404 is caught and becomes null; other errors are rethrown. -/
def getContribActivity (f : ContributorsFetch) :
    Except ExecErr (Option (List Contributor)) :=
  match f with
  | .data cs => .ok (some cs)
  | .failure e => if e.status == some 404 then .ok none else .error e

/-- `processRepository(repo, referenceTime)` (lines 63-108): errors thrown
by the stats fetch are rethrown to the batch processor; per-contributor
errors are caught in the inner loop (the model's `processContributor` is
total). -/
def processRepository (env : ActivityEnv) (st : DbState) (repo : RepoRecord)
    (referenceTime : Int) : Except ExecErr DbState :=
  match getContribActivity (env.stats repo.repoId) with
  | .error e => .error e
  | .ok none => .ok st
  | .ok (some cs) =>
    if cs.isEmpty then .ok st
    else .ok (cs.foldl (fun s c => processContributor env.user s c repo.id referenceTime) st)

/-- One iteration of `processBatch`'s `for` loop (lines 24-48), threading
`(db, processedCount, errorCount)`.  A caught error with status 404
triggers `markRepositoryClosedSource(repo.repoId)`. -/
def processBatchStep (env : ActivityEnv) (referenceTime : Int)
    (acc : DbState × Nat × Nat) (repo : RepoRecord) : DbState × Nat × Nat :=
  match processRepository env acc.1 repo referenceTime with
  | .ok st' => (st', acc.2.1 + 1, acc.2.2)
  | .error e =>
    if e.status == some 404 then
      ({ acc.1 with closedSource := acc.1.closedSource ++ [repo.repoId] },
        acc.2.1, acc.2.2 + 1)
    else (acc.1, acc.2.1, acc.2.2 + 1)

/-- `processBatch(repos)` (lines 16-58): returns the final database state
with `(processedCount, errorCount)`. -/
def processBatch (env : ActivityEnv) (st : DbState) (repos : List RepoRecord)
    (referenceTime : Int) : DbState × Nat × Nat :=
  repos.foldl (processBatchStep env referenceTime) (st, 0, 0)

/-! ## RepositoryDiscoveryWorker.processCodeSearchResults
(src/workers/RepositoryDiscoveryWorker.js, lines 121-213) and
DatabaseService.bulkCreateRepositories (DatabaseService.js, lines 75-94) -/

/-- `item.repository`: `id = 0` and `name = ""` model the falsy values the
`!repository.id || !repository.name` guard rejects. -/
structure SearchRepoLite where
  id : Nat
  name : String
  owner : String
  htmlUrl : String
deriving DecidableEq, Repr

structure CodeSearchItem where
  repository : Option SearchRepoLite
deriving DecidableEq, Repr

structure RepoDetails where
  createdAt : Int
  openIssuesCount : Nat
  stargazersCount : Nat
deriving DecidableEq, Repr

/-- Outcome of `githubService.getRepository({ owner, repo })`. -/
inductive DetailFetch
  | detail (d : RepoDetails)
  /-- 404: `getRepository` returns null. -/
  | nullRepo
  /-- Other error: rethrown, caught by the per-item try/catch. -/
  | failure (e : ExecErr)
deriving DecidableEq, Repr

structure RepoRow where
  repoId : String
  name : String
  url : String
  owner : String
  started : Int
  ecosystem : String
  isClosedSource : Bool
  issuesAndPrs : Nat
  stars : Nat
deriving DecidableEq, Repr

structure RepoTypeRow where
  repoId : String
  type : String
deriving DecidableEq, Repr

def repoKeyOf (owner name : String) : String := owner ++ "/" ++ name

/-- The `${repository.owner.login}/${repository.name}` dedup key of a row. -/
def RepoRow.key (r : RepoRow) : String := repoKeyOf r.owner r.name

/-- Number of rows carrying a given owner/name dedup key. -/
def countKey (l : List RepoRow) (k : String) : Nat :=
  (l.filter (fun r => r.key == k)).length

/-- Number of rows carrying a given natural key `repoId`. -/
def countRepoId (l : List RepoRow) (rid : String) : Nat :=
  (l.filter (fun r => r.repoId == rid)).length

/-- Accumulator of one `processCodeSearchResults` call: the (shared,
per-run) `this.processedRepos` set plus the local `reposData` /
`repoTypesData` arrays. -/
structure CodeSearchAcc where
  seen : List String
  rows : List RepoRow
  typeRows : List RepoTypeRow
deriving DecidableEq, Repr

/-- The body of the `for (const item of items)` loop (lines 125-185). -/
def processCodeSearchItem (detailEnv : String → String → DetailFetch)
    (eco : String) (ty : Option String) (acc : CodeSearchAcc)
    (item : CodeSearchItem) : CodeSearchAcc :=
  match item.repository with
  | none => acc
  | some r =>
    if r.id = 0 || r.name = "" then acc
    else
      let key := repoKeyOf r.owner r.name
      if acc.seen.contains key then acc
      else
        match detailEnv r.owner r.name with
        | .failure _ => acc
        | .nullRepo => acc
        | .detail d =>
          let row : RepoRow :=
            { repoId := toString r.id, name := r.name, url := r.htmlUrl,
              owner := r.owner, started := d.createdAt, ecosystem := eco,
              isClosedSource := false, issuesAndPrs := d.openIssuesCount,
              stars := d.stargazersCount }
          { seen := acc.seen ++ [key],
            rows := acc.rows ++ [row],
            typeRows :=
              match ty with
              | some t => acc.typeRows ++ [{ repoId := toString r.id, type := t }]
              | none => acc.typeRows }

/-- `processCodeSearchResults(items, ecosystem, type)` up to (not
including) the bulk inserts at its end. -/
def processCodeSearchResults (detailEnv : String → String → DetailFetch)
    (eco : String) (ty : Option String) (seen : List String)
    (items : List CodeSearchItem) : CodeSearchAcc :=
  items.foldl (processCodeSearchItem detailEnv eco ty)
    { seen := seen, rows := [], typeRows := [] }

/-- `bulkCreateRepositories` with `ignoreDuplicates: true` against the
unique `repoId` column of the SolanaGithubRepos model. -/
def insertIgnoreRepos (db : List RepoRow) (rows : List RepoRow) : List RepoRow :=
  rows.foldl (fun acc r =>
    if acc.any (fun x => x.repoId == r.repoId) then acc else acc ++ [r]) db

/-- The per-page loop of `searchByCode` (lines 61-112) restricted to what it
does with search results: each page's items go through
`processCodeSearchResults`, whose `reposData` is then bulk-inserted.  The
dedup set threads across pages and query cells of the whole run. -/
def runCodeSearchBatches (detailEnv : String → String → DetailFetch)
    (eco : String) (ty : Option String) :
    List (List CodeSearchItem) → List String → List RepoRow →
      List String × List RepoRow
  | [], seen, db => (seen, db)
  | b :: bs, seen, db =>
    let acc := processCodeSearchResults detailEnv eco ty seen b
    runCodeSearchBatches detailEnv eco ty bs acc.seen (insertIgnoreRepos db acc.rows)

/-! ## Worker run guards
(RepositoryDiscoveryWorker.run lines 374-403; DeveloperActivityWorker.run
lines 211-271 and runBackfill lines 276-326)

Each `run` is `if (this.isRunning) return; this.isRunning = true; try {...}
catch { log } finally { this.isRunning = false }`.  JS is single-threaded
and there is no `await` between the guard and the flag assignment, so the
guard-and-set prefix is one atomic step; the body suspends at its awaits,
which is where a second trigger can observe the flag.  Each worker's run is
therefore embedded as its atomic begin step plus its catch/finally end
step, with the body's outcome abstracted as an `Except`. -/

inductive TriggerResult
  | rejected
  | entered
deriving DecidableEq, Repr

/-- Guard-and-set prefix of `RepositoryDiscoveryWorker.run` (374-381). -/
def discoveryRunBegin (isRunning : Bool) : TriggerResult × Bool :=
  if isRunning then (.rejected, isRunning) else (.entered, true)

/-- Catch/finally suffix of `RepositoryDiscoveryWorker.run` (396-402): the
catch only logs, and `finally` clears the flag whatever the outcome was. -/
def discoveryRunEnd (_outcome : Except ExecErr Unit) : Bool := false

/-- Guard-and-set prefix of `DeveloperActivityWorker.run` (212-217). -/
def activityRunBegin (isRunning : Bool) : TriggerResult × Bool :=
  if isRunning then (.rejected, isRunning) else (.entered, true)

/-- Catch/finally suffix of `DeveloperActivityWorker.run` (264-270). -/
def activityRunEnd (_outcome : Except ExecErr Unit) : Bool := false

/-- Guard-and-set prefix of `DeveloperActivityWorker.runBackfill` (277-282). -/
def backfillRunBegin (isRunning : Bool) : TriggerResult × Bool :=
  if isRunning then (.rejected, isRunning) else (.entered, true)

/-- Catch/finally suffix of `DeveloperActivityWorker.runBackfill` (319-325). -/
def backfillRunEnd (_outcome : Except ExecErr Unit) : Bool := false

/-! ### Concrete instances used by witnesses and counterexamples -/

/-- The pool state of a `TokenManager` built from one token. -/
def poolOne : PoolState := { tokens := [freshTokenState], currentIndex := 0 }

/-- A quota table whose core bucket is exhausted until epoch second 2000. -/
def exhaustedCoreLimits : RateLimits :=
  { initialRateLimits with core := some ⟨0, 2000, 5000⟩ }

/-- An unhealthy token (3 consecutive probe failures). -/
def tokWaitUnhealthy : TokenState :=
  { rateLimits := initialRateLimits, lastUsed := 1000000,
    isHealthy := false, consecutiveErrors := 3 }

/-- A healthy token with no core quota left and a reset in the future. -/
def tokWaitHealthy : TokenState :=
  { rateLimits := exhaustedCoreLimits, lastUsed := 1000000,
    isHealthy := true, consecutiveErrors := 0 }

/-- Pool in which token 0 is unhealthy and token 1 is the only healthy,
core-exhausted token: the wait path of `getBestToken` must pick a token. -/
def poolWait : PoolState :=
  { tokens := [tokWaitUnhealthy, tokWaitHealthy], currentIndex := 0 }

def err404 : ExecErr := { status := some 404, msgRateLimit := false, msgSecondary := false }

def err500 : ExecErr := { status := some 500, msgRateLimit := false, msgSecondary := false }

def envErr404 : Nat → AttemptOutcome Unit := fun _ => .err err404

def envErr500 : Nat → AttemptOutcome Unit := fun _ => .err err500

/-- An upstream that returns 202 forever. -/
def respAll202 : Nat → StatsResp (List Contributor) := fun _ => .accepted

/-- An upstream that returns 202 three times, then real data. -/
def respPollThree : Nat → StatsResp (List Contributor) :=
  fun k => if k < 3 then .accepted else .ok []

def dbEmpty : DbState :=
  { developers := [], activities := [], closedSource := [], nextDevId := 1 }

def repo404 : RepoRecord := { id := 7, repoId := "repo-7", owner := "own", name := "nam" }

/-- An activity environment in which every contributor-stats request throws
with HTTP status 404. -/
def env404 : ActivityEnv :=
  { stats := fun _ => .failure err404, user := fun _ => .missing }

/-- A code-search item naming repository `own/nam` with id 5. -/
def itemDup : CodeSearchItem :=
  { repository := some { id := 5, name := "nam", owner := "own", htmlUrl := "u" } }

/-- A detail-fetch environment that always succeeds. -/
def detailEnvOk : String → String → DetailFetch :=
  fun _ _ => .detail { createdAt := 100, openIssuesCount := 1, stargazersCount := 2 }

def rowDup : RepoRow :=
  { repoId := "5", name := "nam", url := "u", owner := "own", started := 100,
    ecosystem := "solana", isClosedSource := false, issuesAndPrs := 1, stars := 2 }

end SolanaCollector

namespace SolanaCollector

/-- Auxiliary: the concrete value of the generated numeric ranges. -/
theorem genSizeRangesFrom_zero :
    genSizeRangesFrom 0 =
      [(0, 199), (150, 349), (300, 499), (450, 649), (600, 799), (750, 949),
       (900, 1099),
       (1050, 1549), (1300, 1799), (1550, 2049), (1800, 2299), (2050, 2549),
       (2300, 2799), (2550, 3049), (2800, 3299),
       (3050, 4049), (3550, 4549), (4050, 5049), (4550, 5549),
       (5050, 7049), (6050, 8049), (7050, 9049), (8050, 10049), (9050, 11049),
       (10050, 15049)] := by
  simp [genSizeRangesFrom]

end SolanaCollector

namespace SolanaCollector

/-- C2: the size-range generator is a pure function of no inputs whose value
is the fixed list below (determinism); its band-1 prefix consists of the
seven ranges of width 200 and stride 150 starting at 0, 150, 300, ... up to
the 1000 boundary; and the numeric ranges cover every size from 0 up to at
least 15000. -/
theorem generateSizeRanges_spec :
    generateSizeRanges =
      ["0..199", "150..349", "300..499", "450..649", "600..799", "750..949",
       "900..1099",
       "1050..1549", "1300..1799", "1550..2049", "1800..2299", "2050..2549",
       "2300..2799", "2550..3049", "2800..3299",
       "3050..4049", "3550..4549", "4050..5049", "4550..5549",
       "5050..7049", "6050..8049", "7050..9049", "8050..10049", "9050..11049",
       "10050..15049"] ∧
    (genSizeRangesFrom 0).take 7 =
      [(0, 199), (150, 349), (300, 499), (450, 649), (600, 799), (750, 949),
       (900, 1099)] ∧
    ∀ n : Nat, n ≤ 15000 → ∃ p ∈ genSizeRangesFrom 0, p.1 ≤ n ∧ n ≤ p.2 := by
  refine ⟨?_, ?_, ?_⟩
  · simp only [generateSizeRanges, genSizeRangesFrom_zero]
    rfl
  · rw [genSizeRangesFrom_zero]
    rfl
  · intro n hn
    rw [genSizeRangesFrom_zero]
    by_cases h1 : n < 150
    · exact ⟨(0, 199), by decide, by omega⟩
    by_cases h2 : n < 300
    · exact ⟨(150, 349), by decide, by omega⟩
    by_cases h3 : n < 450
    · exact ⟨(300, 499), by decide, by omega⟩
    by_cases h4 : n < 600
    · exact ⟨(450, 649), by decide, by omega⟩
    by_cases h5 : n < 750
    · exact ⟨(600, 799), by decide, by omega⟩
    by_cases h6 : n < 900
    · exact ⟨(750, 949), by decide, by omega⟩
    by_cases h7 : n < 1050
    · exact ⟨(900, 1099), by decide, by omega⟩
    by_cases h8 : n < 1300
    · exact ⟨(1050, 1549), by decide, by omega⟩
    by_cases h9 : n < 1550
    · exact ⟨(1300, 1799), by decide, by omega⟩
    by_cases h10 : n < 1800
    · exact ⟨(1550, 2049), by decide, by omega⟩
    by_cases h11 : n < 2050
    · exact ⟨(1800, 2299), by decide, by omega⟩
    by_cases h12 : n < 2300
    · exact ⟨(2050, 2549), by decide, by omega⟩
    by_cases h13 : n < 2550
    · exact ⟨(2300, 2799), by decide, by omega⟩
    by_cases h14 : n < 2800
    · exact ⟨(2550, 3049), by decide, by omega⟩
    by_cases h15 : n < 3050
    · exact ⟨(2800, 3299), by decide, by omega⟩
    by_cases h16 : n < 3550
    · exact ⟨(3050, 4049), by decide, by omega⟩
    by_cases h17 : n < 4050
    · exact ⟨(3550, 4549), by decide, by omega⟩
    by_cases h18 : n < 4550
    · exact ⟨(4050, 5049), by decide, by omega⟩
    by_cases h19 : n < 5050
    · exact ⟨(4550, 5549), by decide, by omega⟩
    by_cases h20 : n < 6050
    · exact ⟨(5050, 7049), by decide, by omega⟩
    by_cases h21 : n < 7050
    · exact ⟨(6050, 8049), by decide, by omega⟩
    by_cases h22 : n < 8050
    · exact ⟨(7050, 9049), by decide, by omega⟩
    by_cases h23 : n < 9050
    · exact ⟨(8050, 10049), by decide, by omega⟩
    by_cases h24 : n < 10050
    · exact ⟨(9050, 11049), by decide, by omega⟩
    exact ⟨(10050, 15049), by decide, by omega⟩

/-- C2 witness: the coverage conjunct applied at the concrete size 12345. -/
theorem generateSizeRanges_spec_witness :
    (12345 ≤ 15000) ∧ ∃ p ∈ genSizeRangesFrom 0, p.1 ≤ 12345 ∧ 12345 ≤ p.2 :=
  ⟨by norm_num, generateSizeRanges_spec.2.2 12345 (by norm_num)⟩

/-- C5: for every current time and contributor weeks list, the activity
filter keeps exactly the entries with nonzero commits whose week timestamp
is strictly greater than `referenceTime = now - 26*7 days`; entries with
`c = 0` or `w ≤ referenceTime` (including `w = referenceTime`) are excluded
by this characterization. -/
theorem filterActivities_spec (now : Int) (weeks : List WeekEntry) (x : WeekEntry) :
    x ∈ filterActivities weeks (referenceTimeOf now) ↔
      x ∈ weeks ∧ x.c ≠ 0 ∧ referenceTimeOf now < x.w := by
  simp [filterActivities, List.mem_filter, Bool.and_eq_true, bne_iff_ne,
    decide_eq_true_eq, and_assoc]

end SolanaCollector

namespace SolanaCollector

/-- C10: constructing the scheduler with a missing or empty credential list
fails at construction time, not at the first request: `new TokenManager`
throws on a missing or zero-length token list, `new GitHubService` throws
on a zero-length configured token list, and both succeed exactly on a
nonempty list. -/
theorem constructor_rejects_empty_tokens :
    tokenManagerInit none = .error "No GitHub tokens provided" ∧
    tokenManagerInit (some []) = .error "No GitHub tokens provided" ∧
    gitHubServiceInit [] = .error "No GitHub tokens configured" ∧
    (∀ ts : List String, (∃ p, tokenManagerInit (some ts) = .ok p) ↔ ts ≠ []) ∧
    (∀ ts : List String, (∃ p, gitHubServiceInit ts = .ok p) ↔ ts ≠ []) := by
  refine ⟨rfl, rfl, rfl, ?_, ?_⟩ <;> intro ts <;> cases ts <;>
    simp [tokenManagerInit, gitHubServiceInit]

/-- C8: for each of the three top-level run entry points (discovery run,
activity run, activity backfill): a trigger is rejected exactly when the
running flag is set; entering sets the flag, so a second trigger arriving
while the first run is still between its begin and end steps is rejected
without starting work; and the end step clears the flag for every outcome
of the body, a caught failure included, after which a new trigger enters. -/
theorem worker_run_guard :
    (∀ b, (discoveryRunBegin b).1 = TriggerResult.rejected ↔ b = true) ∧
    (∀ b, (activityRunBegin b).1 = TriggerResult.rejected ↔ b = true) ∧
    (∀ b, (backfillRunBegin b).1 = TriggerResult.rejected ↔ b = true) ∧
    discoveryRunBegin false = (.entered, true) ∧
    activityRunBegin false = (.entered, true) ∧
    backfillRunBegin false = (.entered, true) ∧
    (discoveryRunBegin (discoveryRunBegin false).2).1 = TriggerResult.rejected ∧
    (activityRunBegin (activityRunBegin false).2).1 = TriggerResult.rejected ∧
    (backfillRunBegin (backfillRunBegin false).2).1 = TriggerResult.rejected ∧
    (∀ o, discoveryRunEnd o = false) ∧
    (∀ o, activityRunEnd o = false) ∧
    (∀ o, backfillRunEnd o = false) ∧
    (∀ e : ExecErr,
      discoveryRunBegin (discoveryRunEnd (.error e)) = (.entered, true) ∧
      activityRunBegin (activityRunEnd (.error e)) = (.entered, true) ∧
      backfillRunBegin (backfillRunEnd (.error e)) = (.entered, true)) := by
  refine ⟨?_, ?_, ?_, rfl, rfl, rfl, rfl, rfl, rfl,
      fun o => rfl, fun o => rfl, fun o => rfl, fun e => ⟨rfl, rfl, rfl⟩⟩ <;>
    intro b <;> cases b <;>
    simp [discoveryRunBegin, activityRunBegin, backfillRunBegin]

/-- C9: on a 202 response the contributor-stats fetch sleeps the fixed
2000 ms and re-issues the same request (second conjunct); the retry
recursion has no attempt cap, so on an upstream that returns 202 forever no
examination depth ever yields a result (first conjunct); and as soon as the
upstream stops returning 202, at response `m`, the call terminates with a
result once the examination depth exceeds `m` (third conjunct). -/
theorem pollContributorStats_spec :
    (∀ (resp : Nat → StatsResp (List Contributor)), (∀ k, resp k = .accepted) →
      ∀ fuel k, pollContributorStats resp k fuel = (List.replicate fuel 2000, none)) ∧
    (∀ (resp : Nat → StatsResp (List Contributor)) (k fuel : Nat),
      resp k = .accepted →
      pollContributorStats resp k (fuel + 1) =
        (2000 :: (pollContributorStats resp (k + 1) fuel).1,
          (pollContributorStats resp (k + 1) fuel).2)) ∧
    (∀ (resp : Nat → StatsResp (List Contributor)) (k m : Nat),
      (∀ j, j < m → resp (k + j) = .accepted) → resp (k + m) ≠ .accepted →
      ∀ fuel, m < fuel → (pollContributorStats resp k fuel).2.isSome = true) := by
  refine ⟨?_, ?_, ?_⟩
  · intro resp h fuel
    induction fuel with
    | zero => intro k; simp [pollContributorStats]
    | succ n ih =>
      intro k
      simp only [pollContributorStats, h k, ih (k + 1), List.replicate_succ]
  · intro resp k fuel h
    simp only [pollContributorStats, h]
  · intro resp k m
    induction m generalizing k with
    | zero =>
      intro _ hne fuel hfuel
      match fuel, hfuel with
      | f + 1, _ =>
        simp only [pollContributorStats]
        cases hr : resp k with
        | accepted => exact absurd hr (by simpa using hne)
        | ok d => simp
        | notFound => simp
        | err e => simp
    | succ m ih =>
      intro hall hne fuel hfuel
      match fuel, hfuel with
      | f + 1, hf =>
        have h0 : resp k = .accepted := by simpa using hall 0 (Nat.succ_pos m)
        simp only [pollContributorStats, h0]
        refine ih (k + 1) (fun j hj => ?_) ?_ f (by omega)
        · have := hall (j + 1) (by omega)
          simpa [Nat.add_assoc, Nat.add_comm 1 j] using this
        · have : k + (m + 1) = k + 1 + m := by omega
          simpa [this] using hne

end SolanaCollector

namespace SolanaCollector

/-- Auxiliary: a 5xx status rules out the 403 message checks and the 4xx
fail-fast window. -/
theorem statusGE500_branches (e : ExecErr) (h : e.statusGE 500 = true) :
    (e.status == some 403) = false ∧ e.statusLT 500 = false := by
  unfold ExecErr.statusGE at h
  cases hst : e.status with
  | none => rw [hst] at h; simp at h
  | some s =>
    rw [hst] at h
    have hs : 500 ≤ s := by simpa using h
    refine ⟨?_, ?_⟩
    · simp only [beq_eq_false_iff_ne, ne_eq, Option.some.injEq]
      omega
    · unfold ExecErr.statusLT
      rw [hst]
      simp only [decide_eq_false_iff_not, not_lt]
      omega

/-- Auxiliary: when every attempt fails with a 5xx error, the execute loop
consumes all remaining attempts, sleeping the linear backoff at each one,
and ends holding the last observed error. -/
theorem executeLoop_all5xx {α : Type} (env : Nat → AttemptOutcome α)
    (errs : Nat → ExecErr)
    (h1 : ∀ j, env j = .err (errs j)) (h2 : ∀ j, (errs j).statusGE 500 = true) :
    ∀ (rem attempt : Nat) (last : Option ExecErr) (sleeps : List Nat),
      executeLoop env rem attempt last sleeps =
        .exhausted (if rem = 0 then last else some (errs (attempt + rem - 1)))
          (sleeps ++ (List.range rem).map (fun j => 2000 * (attempt + j + 1))) := by
  intro rem
  induction rem with
  | zero => intro attempt last sleeps; simp [executeLoop]
  | succ n ih =>
    intro attempt last sleeps
    obtain ⟨hbeq, hlt⟩ := statusGE500_branches (errs attempt) (h2 attempt)
    simp only [executeLoop, h1 attempt, hbeq, hlt, h2 attempt, Bool.false_and,
      Bool.and_false, Bool.true_and, Bool.false_eq_true, if_false, if_true]
    rw [ih (attempt + 1) (some (errs attempt)) (sleeps ++ [2000 * (attempt + 1)])]
    have hfun : (fun j => 2000 * (attempt + 1 + j + 1)) =
        (fun j => 2000 * (attempt + (j + 1) + 1)) := by
      funext j; omega
    congr 1
    · cases n with
      | zero => simp
      | succ m =>
        simp only [if_neg (Nat.succ_ne_zero m), if_neg (Nat.succ_ne_zero (m + 1))]
        congr 2
        omega
    · rw [List.range_succ_eq_map, List.map_cons, List.map_map]
      simp only [List.append_assoc, List.singleton_append, Function.comp_def, hfun]

/-- C3: for every request function (abstracted as the per-attempt outcome
stream `env`): a failure with a non-rate-limit 4xx status makes `execute`
rethrow it at that attempt, with no further attempt and no sleep (first
conjunct); a 5xx failure leads to one more attempt after a linear-backoff
sleep of `2000 * (attempt + 1)` ms (second conjunct); and when every one of
the `tokens.length` bounded attempts fails with 5xx, `execute` performs
exactly that many attempts and throws the last observed error (third
conjunct). -/
theorem execute_error_policy :
    (∀ (α : Type) (env : Nat → AttemptOutcome α) (rem attempt : Nat)
        (last : Option ExecErr) (sleeps : List Nat) (e : ExecErr),
        env attempt = .err e → e.isPlain4xx →
        executeLoop env (rem + 1) attempt last sleeps = .thrown e attempt sleeps) ∧
    (∀ (α : Type) (env : Nat → AttemptOutcome α) (rem attempt : Nat)
        (last : Option ExecErr) (sleeps : List Nat) (e : ExecErr),
        env attempt = .err e → e.statusGE 500 = true →
        executeLoop env (rem + 1) attempt last sleeps =
          executeLoop env rem (attempt + 1) (some e) (sleeps ++ [2000 * (attempt + 1)])) ∧
    (∀ (α : Type) (env : Nat → AttemptOutcome α) (errs : Nat → ExecErr) (n : Nat),
        (∀ j, env j = .err (errs j)) → (∀ j, (errs j).statusGE 500 = true) →
        execute (n + 1) env =
          .exhausted (some (errs n)) ((List.range (n + 1)).map (fun j => 2000 * (j + 1)))) := by
  refine ⟨?_, ?_, ?_⟩
  · intro α env rem attempt last sleeps e henv hplain
    obtain ⟨h4, h5, hnot⟩ := hplain
    have hc1 : (e.status == some 403 && e.msgRateLimit) = false := by
      by_cases h : e.status = some 403
      · have hrl : e.msgRateLimit = false := by
          cases hb : e.msgRateLimit
          · rfl
          · exact absurd ⟨h, Or.inl hb⟩ hnot
        simp [hrl]
      · simp [beq_eq_false_iff_ne, h]
    have hc2 : (e.status == some 403 && e.msgSecondary) = false := by
      by_cases h : e.status = some 403
      · have hsec : e.msgSecondary = false := by
          cases hb : e.msgSecondary
          · rfl
          · exact absurd ⟨h, Or.inr hb⟩ hnot
        simp [hsec]
      · simp [beq_eq_false_iff_ne, h]
    simp [executeLoop, henv, hc1, hc2, h4, h5]
  · intro α env rem attempt last sleeps e henv h5xx
    obtain ⟨hbeq, hlt⟩ := statusGE500_branches e h5xx
    simp [executeLoop, henv, hbeq, hlt, h5xx]
  · intro α env errs n h1 h2
    have hfun : (fun j => 2000 * (0 + j + 1)) = (fun j => 2000 * (j + 1)) := by
      funext j; omega
    have := executeLoop_all5xx env errs h1 h2 (n + 1) 0 none []
    simpa [execute, hfun] using this

/-- C3 witness: the three conjuncts at concrete inputs — a bare 404 thrown
at once; a 500 retried with a 2000 ms backoff; two all-500 attempts
exhausting a two-token pool and surfacing the last error. -/
theorem execute_error_policy_witness :
    (envErr404 0 = .err err404 ∧ err404.isPlain4xx ∧
      executeLoop envErr404 1 0 none [] = .thrown err404 0 []) ∧
    (envErr500 0 = .err err500 ∧ err500.statusGE 500 = true ∧
      executeLoop envErr500 2 0 none [] =
        executeLoop envErr500 1 1 (some err500) ([] ++ [2000 * (0 + 1)])) ∧
    ((∀ j, envErr500 j = .err err500) ∧
      execute 2 envErr500 =
        .exhausted (some err500) ((List.range 2).map (fun j => 2000 * (j + 1)))) := by
  refine ⟨⟨rfl, ?p4, ?_⟩, ⟨rfl, by decide, ?_⟩, ⟨fun j => rfl, ?_⟩⟩
  case p4 => unfold ExecErr.isPlain4xx; decide
  · exact execute_error_policy.1 Unit envErr404 0 0 none [] err404 rfl
      (by unfold ExecErr.isPlain4xx; decide)
  · exact execute_error_policy.2.1 Unit envErr500 1 0 none [] err500 rfl (by decide)
  · exact execute_error_policy.2.2 Unit envErr500 (fun _ => err500) 1
      (fun j => rfl) (fun j => show err500.statusGE 500 = true by decide)

end SolanaCollector

namespace SolanaCollector

/-- Auxiliary: reading back the element just modified. -/
theorem modifyIdx_get_same (l : List α) (i : Nat) (f : α → α) :
    (modifyIdx l i f).get? i = (l.get? i).map f := by
  unfold modifyIdx
  cases h : l.get? i with
  | none => simpa using h
  | some a =>
    have hlt : i < l.length := by
      by_contra hge
      rw [List.get?_eq_none.mpr (by omega)] at h
      exact Option.noConfusion h
    simp [h, List.get?_eq_getElem?, List.getElem?_set_eq_of_lt (f a) hlt]

/-- Auxiliary: the loop-path selection bookkeeping (`lastUsed`,
`currentIndex`) does not change the selected token's quota snapshot. -/
theorem tokenQuota_selectToken (s : PoolState) (idx now : Nat) (apiType : ApiType) :
    tokenQuota (selectToken s idx now) idx apiType = tokenQuota s idx apiType := by
  unfold tokenQuota selectToken
  simp only [modifyIdx_get_same]
  cases h : s.tokens.get? idx <;> simp [h]

/-- Auxiliary: a `.pick` from the quota checks always carries a token whose
recorded remaining quota in the requested category is positive. -/
theorem gbtScanCheck_pick (apiType : ApiType) (now : Nat)
    (env : Nat → Option RateLimits) (s1 : PoolState) (index k1 : Nat)
    (idx : Nat) (s' : PoolState) (k' : Nat)
    (h : gbtScanCheck apiType now env s1 index k1 = .pick idx s' k') :
    ∃ q, tokenQuota s' idx apiType = some q ∧ 0 < q.remaining := by
  simp only [gbtScanCheck] at h
  split at h
  · exact ScanStep.noConfusion h
  · rename_i token1 hget1
    split at h
    · exact ScanStep.noConfusion h
    · rename_i rl hlook1
      split at h
      · rename_i hrem
        injection h with h1 h2 h3
        subst h1; subst h2
        refine ⟨rl, ?_, hrem⟩
        rw [tokenQuota_selectToken]
        simp only [List.get?_eq_getElem?] at hget1
        simp [tokenQuota, hget1, hlook1]
      · split at h
        · split at h
          · exact ScanStep.noConfusion h
          · rename_i token2 hget2
            split at h
            · exact ScanStep.noConfusion h
            · rename_i rl2 hlook2
              split at h
              · rename_i hrem2
                injection h with h1 h2 h3
                subst h1; subst h2
                refine ⟨rl2, ?_, hrem2⟩
                rw [tokenQuota_selectToken]
                simp only [List.get?_eq_getElem?] at hget2
                simp [tokenQuota, hget2, hlook2]
              · exact ScanStep.noConfusion h
        · exact ScanStep.noConfusion h

/-- Auxiliary: `gbtScanStep` only `.pick`s through `gbtScanCheck`. -/
theorem gbtScanStep_pick (apiType : ApiType) (now : Nat)
    (env : Nat → Option RateLimits) (s : PoolState) (i k : Nat)
    (idx : Nat) (s' : PoolState) (k' : Nat)
    (h : gbtScanStep apiType now env s i k = .pick idx s' k') :
    ∃ q, tokenQuota s' idx apiType = some q ∧ 0 < q.remaining := by
  simp only [gbtScanStep] at h
  split at h
  · exact ScanStep.noConfusion h
  · split at h
    · exact ScanStep.noConfusion h
    · split at h
      · exact gbtScanCheck_pick _ _ _ _ _ _ _ _ _ h
      · exact gbtScanCheck_pick _ _ _ _ _ _ _ _ _ h

/-- Auxiliary: lifting the step property through the candidate scan. -/
theorem gbtScan_pick (apiType : ApiType) (now : Nat)
    (env : Nat → Option RateLimits) :
    ∀ (rem : Nat) (s : PoolState) (i k idx : Nat) (s' : PoolState) (k' : Nat),
      gbtScan apiType now env rem s i k = (some idx, s', k') →
      ∃ q, tokenQuota s' idx apiType = some q ∧ 0 < q.remaining := by
  intro rem
  induction rem with
  | zero =>
    intro s i k idx s' k' h
    simp [gbtScan] at h
  | succ n ih =>
    intro s i k idx s' k' h
    simp only [gbtScan] at h
    cases hstep : gbtScanStep apiType now env s i k with
    | pick j s2 k2 =>
      rw [hstep] at h
      simp only [Prod.mk.injEq, Option.some.injEq] at h
      obtain ⟨h1, h2, h3⟩ := h
      subst h1; subst h2
      exact gbtScanStep_pick _ _ _ _ _ _ _ _ _ hstep
    | pass s2 k2 =>
      rw [hstep] at h
      exact ih s2 (i + 1) k2 idx s' k' h

/-- C1: whenever `getBestToken` returns a credential through the candidate
scan (i.e. not through the all-exhausted wait path), the returned
credential's recorded quota for the requested category is strictly
positive at selection time, for every pool state, probe environment,
current time and category — unhealthy credentials are skipped by the scan
and stale snapshots are refreshed before `remaining` is trusted. -/
theorem getBestToken_loop_remaining (apiType : ApiType) (now : Nat)
    (env : Nat → Option RateLimits) (s : PoolState) (idx : Nat)
    (h : (getBestToken apiType now env s).result = some (idx, SelectPath.loop)) :
    ∃ q, tokenQuota (getBestToken apiType now env s).state idx apiType = some q ∧
      0 < q.remaining := by
  unfold getBestToken at h ⊢
  rcases hscan : gbtScan apiType now env s.tokens.length s 0 0 with ⟨fst, s', k⟩
  rw [hscan] at h
  cases fst with
  | some j =>
    dsimp only at h ⊢
    simp only [Option.some.injEq, Prod.mk.injEq] at h
    obtain ⟨h1, _⟩ := h
    subst h1
    exact gbtScan_pick apiType now env s.tokens.length s 0 0 j s' k hscan
  | none =>
    dsimp only at h
    split at h
    · exact absurd h (by simp)
    · simp only [Option.some.injEq, Prod.mk.injEq] at h
      exact absurd h.2 (by simp)

/-- C1 witness: a one-token pool with the constructor's initial quota
table; the scan selects token 0 with 5000 core calls remaining. -/
theorem getBestToken_loop_remaining_witness :
    (getBestToken .core 0 (fun _ => none) poolOne).result = some (0, SelectPath.loop) ∧
    ∃ q, tokenQuota (getBestToken .core 0 (fun _ => none) poolOne).state 0 .core = some q ∧
      0 < q.remaining :=
  ⟨by decide, getBestToken_loop_remaining .core 0 (fun _ => none) poolOne 0 (by decide)⟩

end SolanaCollector

namespace SolanaCollector

/-- C4 (counterexample to the wait-path selection): in a pool whose token 0
is unhealthy and whose only healthy token (index 1) is core-exhausted with
its reset at epoch second 2000 (the earliest — and only — healthy reset),
`getBestToken('core')` at `now = 1000000` ms takes the wait path but
returns token 0, the unhealthy one, not token 1: the wait path records the
position inside the filtered healthy array and uses it to index the
unfiltered token array. -/
theorem getBestToken_wait_wrong_index :
    (getBestToken .core 1000000 (fun _ => none) poolWait).result
        = some (0, SelectPath.wait) ∧
    (getBestToken .core 1000000 (fun _ => none) poolWait).result
        ≠ some (1, SelectPath.wait) ∧
    (poolWait.tokens.get? 0).map (fun t => t.isHealthy) = some false ∧
    (poolWait.tokens.get? 1).map (fun t => t.isHealthy) = some true ∧
    tokenQuota poolWait 1 .core = some ⟨0, 2000, 5000⟩ ∧
    resetTimeOf (tokenQuota poolWait 1 .core) 1000000 = 2000000 := by
  decide

/-- Auxiliary: an error propagated out of `processRepository` never has
status 404, because `getContributorsActivity` catches 404 and returns null. -/
theorem processRepository_error_status (env : ActivityEnv) (st : DbState)
    (repo : RepoRecord) (rt : Int) (e : ExecErr)
    (h : processRepository env st repo rt = .error e) :
    (e.status == some 404) = false := by
  unfold processRepository getContribActivity at h
  cases hf : env.stats repo.repoId with
  | data cs =>
    rw [hf] at h
    dsimp only at h
    split at h <;> exact Except.noConfusion h
  | failure e2 =>
    rw [hf] at h
    dsimp only at h
    cases h404 : e2.status == some 404 with
    | true =>
      rw [h404] at h
      simp at h
    | false =>
      rw [h404] at h
      simp only [Bool.false_eq_true, if_false] at h
      have he : e2 = e := by
        have := h
        simp at this
        exact this
      subst he
      exact h404

/-- Auxiliary: `processContributor` never touches `closedSource`. -/
theorem processContributor_closedSource (u : String → UserFetch) (st : DbState)
    (c : Contributor) (rid : Nat) (rt : Int) :
    (processContributor u st c rid rt).closedSource = st.closedSource := by
  simp only [processContributor]
  split
  · rfl
  · split
    · rfl
    · split
      · rfl
      · split <;> rfl

/-- Auxiliary: the contributor loop never touches `closedSource`. -/
theorem foldl_processContributor_closedSource (u : String → UserFetch)
    (rid : Nat) (rt : Int) :
    ∀ (cs : List Contributor) (st : DbState),
      (cs.foldl (fun s c => processContributor u s c rid rt) st).closedSource =
        st.closedSource := by
  intro cs
  induction cs with
  | nil => intro st; rfl
  | cons c cs ih =>
    intro st
    rw [List.foldl_cons, ih, processContributor_closedSource]

/-- Auxiliary: a successful `processRepository` leaves `closedSource`
unchanged. -/
theorem processRepository_ok_closedSource (env : ActivityEnv) (st : DbState)
    (repo : RepoRecord) (rt : Int) (st' : DbState)
    (h : processRepository env st repo rt = .ok st') :
    st'.closedSource = st.closedSource := by
  unfold processRepository getContribActivity at h
  cases hf : env.stats repo.repoId with
  | data cs =>
    rw [hf] at h
    dsimp only at h
    split at h
    · injection h with h1
      subst h1
      rfl
    · injection h with h1
      subst h1
      exact foldl_processContributor_closedSource env.user repo.id rt cs st
  | failure e2 =>
    rw [hf] at h
    dsimp only at h
    cases h404 : e2.status == some 404 with
    | true =>
      rw [h404] at h
      simp only [if_true] at h
      injection h with h1
      subst h1
      rfl
    | false =>
      rw [h404] at h
      simp at h

/-- Auxiliary: one batch step never extends `closedSource`. -/
theorem processBatchStep_closedSource (env : ActivityEnv) (rt : Int)
    (acc : DbState × Nat × Nat) (repo : RepoRecord) :
    (processBatchStep env rt acc repo).1.closedSource = acc.1.closedSource := by
  unfold processBatchStep
  cases hp : processRepository env acc.1 repo rt with
  | ok st' => exact processRepository_ok_closedSource env acc.1 repo rt st' hp
  | error e =>
    have h404 := processRepository_error_status env acc.1 repo rt e hp
    simp [h404]

/-- Auxiliary: the whole batch never extends `closedSource`. -/
theorem processBatch_foldl_closedSource (env : ActivityEnv) (rt : Int) :
    ∀ (repos : List RepoRecord) (acc : DbState × Nat × Nat),
      ((repos.foldl (processBatchStep env rt) acc).1).closedSource =
        acc.1.closedSource := by
  intro repos
  induction repos with
  | nil => intro acc; rfl
  | cons r rs ih =>
    intro acc
    rw [List.foldl_cons, ih, processBatchStep_closedSource]

/-- C6 (the claim fails on the code): when the upstream answers the
contributor-stats request for a repository with 404,
`getContributorsActivity` catches the 404 and returns null, so the batch
counts the repository as processed (1 processed, 0 errors), performs no
further work for it, and `markRepositoryClosedSource` is never invoked —
the first conjunct shows the database state is returned unchanged, and the
second shows no execution of `processBatch` whatsoever can extend
`closedSource`, i.e. the 404 handler at DeveloperActivityWorker.js line 45
is unreachable through `processRepository`. -/
theorem processBatch_404_no_mark :
    processBatch env404 dbEmpty [repo404] (referenceTimeOf 1700000000)
        = (dbEmpty, 1, 0) ∧
    (∀ (env : ActivityEnv) (st : DbState) (repos : List RepoRecord) (rt : Int),
      (processBatch env st repos rt).1.closedSource = st.closedSource) := by
  constructor
  · rfl
  · intro env st repos rt
    exact processBatch_foldl_closedSource env rt repos (st, 0, 0)

end SolanaCollector

namespace SolanaCollector

/-- Auxiliary: counting keys distributes over append. -/
theorem countKey_append (a b : List RepoRow) (k : String) :
    countKey (a ++ b) k = countKey a k + countKey b k := by
  simp [countKey, List.filter_append]

/-- Auxiliary: insert-ignore can only keep rows that were already there or
were part of the inserted batch. -/
theorem insertIgnoreRepos_countKey_le (k : String) :
    ∀ (rows db : List RepoRow),
      countKey (insertIgnoreRepos db rows) k ≤ countKey db k + countKey rows k := by
  intro rows
  induction rows with
  | nil => intro db; simp [insertIgnoreRepos, countKey]
  | cons r rs ih =>
    intro db
    have hstep : insertIgnoreRepos db (r :: rs) =
        insertIgnoreRepos
          (if db.any (fun x => x.repoId == r.repoId) then db else db ++ [r]) rs := rfl
    rw [hstep]
    have hcons : countKey (r :: rs) k = countKey [r] k + countKey rs k := by
      simp only [countKey, List.filter_cons]
      split <;> simp <;> omega
    by_cases hany : db.any (fun x => x.repoId == r.repoId)
    · have := ih db
      simp only [hany, if_true] at *
      omega
    · have := ih (db ++ [r])
      rw [countKey_append] at this
      simp only [Bool.not_eq_true] at hany
      simp only [hany, Bool.false_eq_true, if_false] at *
      omega

/-- Auxiliary: the per-item invariant of the dedup scan — the dedup set
only grows, rows never repeat a key already in the starting set and carry
at most one row per key, and every pushed key ends up in the set. -/
theorem processCodeSearchItem_inv (d : String → String → DetailFetch)
    (eco : String) (ty : Option String) (seen0 : List String)
    (acc : CodeSearchAcc) (it : CodeSearchItem)
    (h1 : ∀ x ∈ seen0, x ∈ acc.seen)
    (h2 : ∀ k, countKey acc.rows k ≤ if k ∈ seen0 then 0 else 1)
    (h3 : ∀ k, 1 ≤ countKey acc.rows k → k ∈ acc.seen) :
    (∀ x ∈ seen0, x ∈ (processCodeSearchItem d eco ty acc it).seen) ∧
    (∀ k, countKey (processCodeSearchItem d eco ty acc it).rows k ≤
        if k ∈ seen0 then 0 else 1) ∧
    (∀ k, 1 ≤ countKey (processCodeSearchItem d eco ty acc it).rows k →
        k ∈ (processCodeSearchItem d eco ty acc it).seen) := by
  simp only [processCodeSearchItem]
  split
  · exact ⟨h1, h2, h3⟩
  · rename_i r hr
    split
    · exact ⟨h1, h2, h3⟩
    · split
      · exact ⟨h1, h2, h3⟩
      · rename_i hseen
        split
        · exact ⟨h1, h2, h3⟩
        · exact ⟨h1, h2, h3⟩
        · rename_i dts hdts
          have hnotmem : repoKeyOf r.owner r.name ∉ acc.seen := by
            simpa using hseen
          have hrows0 : countKey acc.rows (repoKeyOf r.owner r.name) = 0 := by
            by_contra hc
            exact hnotmem (h3 _ (by omega))
          have hnot0 : repoKeyOf r.owner r.name ∉ seen0 := fun hmem =>
            hnotmem (h1 _ hmem)
          refine ⟨?_, ?_, ?_⟩
          · intro x hx
            exact List.mem_append_left _ (h1 x hx)
          · intro k
            rw [countKey_append]
            by_cases hk : repoKeyOf r.owner r.name = k
            · subst hk
              have hone : countKey
                  [{ repoId := toString r.id, name := r.name, url := r.htmlUrl,
                     owner := r.owner, started := dts.createdAt, ecosystem := eco,
                     isClosedSource := false, issuesAndPrs := dts.openIssuesCount,
                     stars := dts.stargazersCount }]
                  (repoKeyOf r.owner r.name) = 1 := by
                simp [countKey, RepoRow.key]
              rw [hone, hrows0]
              simp [hnot0]
            · have hzero : countKey
                  [{ repoId := toString r.id, name := r.name, url := r.htmlUrl,
                     owner := r.owner, started := dts.createdAt, ecosystem := eco,
                     isClosedSource := false, issuesAndPrs := dts.openIssuesCount,
                     stars := dts.stargazersCount }] k = 0 := by
                simp [countKey, RepoRow.key, hk]
              rw [hzero]
              have := h2 k
              omega
          · intro k hk
            rw [countKey_append] at hk
            by_cases hkey : repoKeyOf r.owner r.name = k
            · subst hkey
              simp
            · have hzero : countKey
                  [{ repoId := toString r.id, name := r.name, url := r.htmlUrl,
                     owner := r.owner, started := dts.createdAt, ecosystem := eco,
                     isClosedSource := false, issuesAndPrs := dts.openIssuesCount,
                     stars := dts.stargazersCount }] k = 0 := by
                simp [countKey, RepoRow.key, hkey]
              rw [hzero] at hk
              exact List.mem_append_left _ (h3 k (by omega))

/-- Auxiliary: the invariant lifted over one whole result page. -/
theorem processCodeSearchResults_inv (d : String → String → DetailFetch)
    (eco : String) (ty : Option String) (seen0 : List String) :
    ∀ (items : List CodeSearchItem) (acc : CodeSearchAcc),
      (∀ x ∈ seen0, x ∈ acc.seen) →
      (∀ k, countKey acc.rows k ≤ if k ∈ seen0 then 0 else 1) →
      (∀ k, 1 ≤ countKey acc.rows k → k ∈ acc.seen) →
      (∀ x ∈ seen0, x ∈ (items.foldl (processCodeSearchItem d eco ty) acc).seen) ∧
      (∀ k, countKey (items.foldl (processCodeSearchItem d eco ty) acc).rows k ≤
          if k ∈ seen0 then 0 else 1) ∧
      (∀ k, 1 ≤ countKey (items.foldl (processCodeSearchItem d eco ty) acc).rows k →
          k ∈ (items.foldl (processCodeSearchItem d eco ty) acc).seen) := by
  intro items
  induction items with
  | nil => intro acc h1 h2 h3; exact ⟨h1, h2, h3⟩
  | cons it its ih =>
    intro acc h1 h2 h3
    obtain ⟨g1, g2, g3⟩ := processCodeSearchItem_inv d eco ty seen0 acc it h1 h2 h3
    exact ih (processCodeSearchItem d eco ty acc it) g1 g2 g3

/-- Auxiliary: the invariant stated for `processCodeSearchResults` itself. -/
theorem processCodeSearchResults_seen_inv (d : String → String → DetailFetch)
    (eco : String) (ty : Option String) (seen : List String)
    (items : List CodeSearchItem) :
    (∀ x ∈ seen, x ∈ (processCodeSearchResults d eco ty seen items).seen) ∧
    (∀ k, countKey (processCodeSearchResults d eco ty seen items).rows k ≤
        if k ∈ seen then 0 else 1) ∧
    (∀ k, 1 ≤ countKey (processCodeSearchResults d eco ty seen items).rows k →
        k ∈ (processCodeSearchResults d eco ty seen items).seen) := by
  unfold processCodeSearchResults
  exact processCodeSearchResults_inv d eco ty seen items
    { seen := seen, rows := [], typeRows := [] }
    (fun x hx => hx)
    (fun k0 => by simp [countKey])
    (fun k0 hk0 => by simp [countKey] at hk0)

/-- Auxiliary: across a whole run, rows carrying a given key can enter the
store at most once (none at all when the key is already in the dedup set). -/
theorem runCodeSearchBatches_countKey (d : String → String → DetailFetch)
    (eco : String) (ty : Option String) :
    ∀ (batches : List (List CodeSearchItem)) (seen : List String)
      (db : List RepoRow) (k : String),
      countKey (runCodeSearchBatches d eco ty batches seen db).2 k ≤
        countKey db k + (if k ∈ seen then 0 else 1) := by
  intro batches
  induction batches with
  | nil =>
    intro seen db k
    simp only [runCodeSearchBatches]
    omega
  | cons b bs ih =>
    intro seen db k
    simp only [runCodeSearchBatches]
    obtain ⟨g1, g2, g3⟩ := processCodeSearchResults_seen_inv d eco ty seen b
    have hrec := ih (processCodeSearchResults d eco ty seen b).seen
      (insertIgnoreRepos db (processCodeSearchResults d eco ty seen b).rows) k
    have hins := insertIgnoreRepos_countKey_le k
      (processCodeSearchResults d eco ty seen b).rows db
    have hrows := g2 k
    by_cases hk0 : k ∈ seen
    · rw [if_pos hk0] at hrows
      rw [if_pos (g1 k hk0)] at hrec
      rw [if_pos hk0]
      omega
    · rw [if_neg hk0] at hrows
      rw [if_neg hk0]
      by_cases hk1 : k ∈ (processCodeSearchResults d eco ty seen b).seen
      · rw [if_pos hk1] at hrec
        omega
      · have hz : countKey (processCodeSearchResults d eco ty seen b).rows k = 0 := by
          by_contra hc
          exact hk1 (g3 k (by omega))
        rw [if_neg hk1] at hrec
        omega

/-- Auxiliary: insert-ignore preserves "at most one row per repoId". -/
theorem insertIgnoreRepos_repoId_le_one :
    ∀ (rows db : List RepoRow) (rid : String),
      countRepoId db rid ≤ 1 →
      countRepoId (insertIgnoreRepos db rows) rid ≤ 1 := by
  intro rows
  induction rows with
  | nil => intro db rid h; simpa [insertIgnoreRepos] using h
  | cons r rs ih =>
    intro db rid h
    have hstep : insertIgnoreRepos db (r :: rs) =
        insertIgnoreRepos
          (if db.any (fun x => x.repoId == r.repoId) then db else db ++ [r]) rs := rfl
    rw [hstep]
    apply ih
    by_cases hany : db.any (fun x => x.repoId == r.repoId)
    · simpa [hany] using h
    · simp only [Bool.not_eq_true] at hany
      simp only [hany, Bool.false_eq_true, if_false]
      rw [show countRepoId (db ++ [r]) rid =
          countRepoId db rid + countRepoId [r] rid by
        simp [countRepoId, List.filter_append]]
      by_cases hrid : r.repoId = rid
      · subst hrid
        have hzero : countRepoId db r.repoId = 0 := by
          rw [List.any_eq_false] at hany
          simp only [countRepoId, List.length_eq_zero]
          rw [List.filter_eq_nil_iff]
          intro a ha
          simpa using hany a ha
        have hone : countRepoId [r] r.repoId = 1 := by simp [countRepoId]
        omega
      · have hz2 : countRepoId [r] rid = 0 := by simp [countRepoId, hrid]
        omega

/-- C7: for every discovery run (any sequence of result pages, any detail
environment) and every owner/name pair, the run persists at most one
repository row with that pair into a store that had none — the per-run
dedup set prevents a second push of the same pair (first conjunct) — and
the bulk insert uses insert-ignore-duplicate semantics on the natural key
`repoId`, preserving at-most-one-row-per-repoId (second conjunct). -/
theorem discovery_run_dedup :
    (∀ (detailEnv : String → String → DetailFetch) (eco : String)
        (ty : Option String) (batches : List (List CodeSearchItem))
        (seen : List String) (db : List RepoRow) (key : String),
        countKey db key = 0 →
        countKey (runCodeSearchBatches detailEnv eco ty batches seen db).2 key ≤ 1) ∧
    (∀ (db rows : List RepoRow) (rid : String),
        countRepoId db rid ≤ 1 →
        countRepoId (insertIgnoreRepos db rows) rid ≤ 1) := by
  constructor
  · intro detailEnv eco ty batches seen db key h0
    have := runCodeSearchBatches_countKey detailEnv eco ty batches seen db key
    rw [h0] at this
    split at this <;> omega
  · intro db rows rid h
    exact insertIgnoreRepos_repoId_le_one rows db rid h

/-- C7 witness: a page containing the same owner/name item twice, inserted
into an empty store, yields at most one row for that pair; and re-inserting
an existing row leaves the store with one row for its repoId. -/
theorem discovery_run_dedup_witness :
    (countKey ([] : List RepoRow) "own/nam" = 0 ∧
      countKey
        (runCodeSearchBatches detailEnvOk "solana" none [[itemDup, itemDup]] [] []).2
        "own/nam" ≤ 1) ∧
    (countRepoId [rowDup] "5" ≤ 1 ∧
      countRepoId (insertIgnoreRepos [rowDup] [rowDup]) "5" ≤ 1) :=
  ⟨⟨rfl, discovery_run_dedup.1 detailEnvOk "solana" none [[itemDup, itemDup]] [] []
      "own/nam" rfl⟩,
    ⟨by decide, discovery_run_dedup.2 [rowDup] [rowDup] "5" (by decide)⟩⟩

end SolanaCollector

namespace SolanaCollector

/-- C9 witness: the three conjuncts at concrete inputs — an all-202 stream
examined to depth 3 yields three 2000 ms sleeps and no result; a single 202
re-issues the request after a 2000 ms sleep; a stream that stops returning
202 at response 3 terminates at depth 4. -/
theorem pollContributorStats_spec_witness :
    ((∀ k, respAll202 k = .accepted) ∧
      pollContributorStats respAll202 0 3 = (List.replicate 3 2000, none)) ∧
    (respPollThree 0 = .accepted ∧
      pollContributorStats respPollThree 0 (2 + 1) =
        (2000 :: (pollContributorStats respPollThree (0 + 1) 2).1,
          (pollContributorStats respPollThree (0 + 1) 2).2)) ∧
    ((∀ j, j < 3 → respPollThree (0 + j) = .accepted) ∧
      respPollThree (0 + 3) ≠ .accepted ∧ 3 < 4 ∧
      (pollContributorStats respPollThree 0 4).2.isSome = true) := by
  refine ⟨⟨fun k => rfl, ?_⟩, ⟨rfl, ?_⟩, ⟨?_, by decide, by omega, ?_⟩⟩
  · exact pollContributorStats_spec.1 respAll202 (fun k => rfl) 3 0
  · exact pollContributorStats_spec.2.1 respPollThree 0 2 rfl
  · intro j hj
    interval_cases j <;> rfl
  · exact pollContributorStats_spec.2.2 respPollThree 0 3
      (fun j hj => by interval_cases j <;> rfl) (by decide) 4 (by omega)

end SolanaCollector
